import Mathlib

/-!
Verification of the transform-upload-verify pipeline in `src/app.py`.

The pipeline reads a tabular source, converts each row into a key/attribute
record (`get_data_items`), uploads the records in batches of 100
(`populate_data`), and validates the remote collection afterwards
(`validate_collection_metadata`, `validate_first_last_rows`, `compare_rows`).

Embedding conventions:
- Python scalar values that flow through the comparison logic are modelled by
  `PyVal`: a string, a JSON integer, or a float given by sign, integer part and
  fractional digit string (covering the plain decimal representations produced
  by the pipeline, e.g. `5.0` with `str` form `"5.0"`).
- Fallible Python operations (`int(...)`, `.split(...)` on a non-string, list
  indexing) return `Except String`, the error string naming the Python
  exception class.
- HTTP endpoints are modelled by their response values, passed as arguments;
  the JSON response of `getitem` becomes `GetItemResp`, of
  `getcollectiondetails` becomes `CollectionDetails`, and a generic response
  object (for the retry wrapper `attempt_request`) becomes an association list.
- In-place mutation of the field dictionaries (lines 229-230 and 113-114 of
  `app.py`) is modelled by explicit state passing: the functions return the
  updated field list alongside their result.
- The pandas/Excel reading and the column coercions of lines 189-205 are the
  source-file reader (an external collaborator per the spec); the embedding
  starts from its output, a typed table given as a schema `List Field` plus
  rows of cells, and models line 192 (synthetic 1-based index) and the
  record-building loop of lines 207-242 faithfully.
- `attempt_request`, an unbounded retry loop in Python, is modelled with
  explicit fuel; exhausting the fuel returns `none`. Its 1-second sleep is
  real time and is not modelled.
-/

deriving instance DecidableEq for Except

namespace Pipeline

/-- A Python scalar value as it occurs in the pipeline: a string, an integer
(as parsed from JSON), or a float in plain decimal form (sign, integer part,
fractional digit string). -/
inductive PyVal where
  | vStr (s : String)
  | vInt (n : Int)
  | vFloat (neg : Bool) (ip : Nat) (frac : String)
deriving DecidableEq

/-- Python `str(v)` for the values above. `str` of a plain-decimal float is
its sign, integer part, a dot, and the fractional digits. -/
def pyStr : PyVal → String
  | .vStr s => s
  | .vInt n => toString n
  | .vFloat neg ip frac => (if neg then "-" else "") ++ toString ip ++ "." ++ frac

/-- Evaluate a digit run left to right; `none` on the first non-digit. -/
def digitsToNatAux : List Char → Nat → Option Nat
  | [], acc => some acc
  | c :: rest, acc =>
    if 48 ≤ c.toNat && c.toNat ≤ 57 then digitsToNatAux rest (acc * 10 + (c.toNat - 48))
    else none

/-- Python `int(string)` on the plain numeral forms that occur here: an
optional minus sign followed by at least one decimal digit; `none` models the
`ValueError` on anything else (e.g. `"5.5"` or `""`). -/
def pyIntOfChars : List Char → Option Int
  | [] => none
  | c :: rest =>
    if c == '-' then
      match rest with
      | [] => none
      | _ :: _ => (digitsToNatAux rest 0).map (fun n => -(n : Int))
    else (digitsToNatAux (c :: rest) 0).map (fun n => (n : Int))

/-- Python `int(v)`: parses an integer numeral from a string (`ValueError` on
anything else, e.g. `"5.5"`), truncates a float toward zero, and is the
identity on integers. -/
def pyInt : PyVal → Except String Int
  | .vStr s =>
    match pyIntOfChars s.data with
    | some n => .ok n
    | none => .error ("ValueError")
  | .vInt n => .ok n
  | .vFloat neg ip _ => .ok (if neg then -(ip : Int) else (ip : Int))

/-- The characters of a string before the first `T`. -/
def charsBeforeT : List Char → List Char
  | [] => []
  | c :: rest => if c == 'T' then [] else c :: charsBeforeT rest

/-- Python `v.split(T)[0]`: the part of a string before the first `T`
(the whole string when there is no `T`); `AttributeError` when `v` is not a
string, since only `str` has `.split`. -/
def pySplitT : PyVal → Except String String
  | .vStr s => .ok (charsBeforeT s.data).asString
  | _ => .error ("AttributeError")

/-- Whether the two-character pattern `".0"` occurs in a character list. -/
def hasDotZero : List Char → Bool
  | [] => false
  | c :: rest => (c == '.' && rest.head? == some '0') || hasDotZero rest

/-- Python `".0" in s`: whether `".0"` occurs as a substring of `s`. -/
def containsDotZero (s : String) : Bool :=
  hasDotZero s.data

/-- Whether a string ends in the trailing suffix `".0"` - the condition the
spec states for the numeric comparison exception, as opposed to the
containment test the code performs. -/
def endsInTrailingDotZero (s : String) : Bool :=
  match s.data.reverse with
  | '0' :: '.' :: _ => true
  | _ => false

/-- One attribute of a record: the dict built at line 232 of `app.py` and the
entries of `response.Item.Attributes`. The Python key `Type` is spelled
`Type'` because `Type` is reserved in Lean. -/
structure Attr where
  Name : String
  Type' : String
  Value : PyVal
deriving DecidableEq

/-- One data item (line 217 of `app.py`): a key and an attribute list. -/
structure Item where
  Key : String
  Attributes : List Attr
deriving DecidableEq

/-- A schema field of the table object produced by `to_json(orient=table)`:
a name and a declared type. -/
structure Field where
  name : String
  type : String
deriving DecidableEq

/-- A table row as a JSON object: an association list from field names to cell
values. -/
abbrev Row := List (String × PyVal)

/-- The result of `get_data_items`: the record list and the (mutated) schema
field list, per line 242 of `app.py`. -/
structure DataItems where
  data : List Item
  fields : List Field
deriving DecidableEq

/-- The JSON response of the `getitem` endpoint:
`{ItemFound: bool, Item: {Attributes: [...]}}`. -/
structure GetItemResp where
  ItemFound : Bool
  itemAttributes : List Attr
deriving DecidableEq

/-- A remote schema field from `getcollectiondetails` (`{Name, Type}`). -/
structure CollField where
  Name : String
  Type' : String
deriving DecidableEq

/-- The JSON response of the `getcollectiondetails` endpoint
(`{Count, Fields}`). -/
structure CollectionDetails where
  Count : Int
  Fields : List CollField
deriving DecidableEq

/-- A generic JSON response object with string fields, as inspected by
`request_denied_check`. -/
abbrev RespObj := List (String × String)

/-- Python `row[name]` on a table row. Rows built by `get_data_items` carry
every schema field name, so the `KeyError` case never arises there; a missing
name defaults to the empty string. -/
def rowGet (row : Row) (name : String) : PyVal :=
  match row.find? (fun p => p.1 == name) with
  | some p => p.2
  | none => .vStr ("")

/-- Lines 53-58 of `app.py`: a response is a denial when it has a `Message`
field equal to `"Access Denied"`. -/
def request_denied_check (response : RespObj) : Bool :=
  match response.lookup ("Message") with
  | some m => m == "Access Denied"
  | none => false

/-- The retry loop of `attempt_request` (lines 42-50), with explicit fuel in
place of the unbounded `while`: `resp k` is the response to the `k`-th post of
the same request, and running out of fuel returns `none`. -/
def attemptRequestAux (resp : Nat → RespObj) : Nat → Nat → Option RespObj
  | 0, _ => none
  | fuel + 1, k =>
    if request_denied_check (resp k) then attemptRequestAux resp fuel (k + 1)
    else some (resp k)

/-- Lines 42-50 of `app.py`: post a request, re-posting every second while the
response is the transient denial, fuelled as above. -/
def attempt_request (resp : Nat → RespObj) (fuel : Nat) : Option RespObj :=
  attemptRequestAux resp fuel 0

/-- Python `range(start, stop, step)` for `step ≥ 1` (a zero step, which
raises `ValueError` in Python, gives `[]`). -/
def pyRange (start stop step : Nat) : List Nat :=
  List.range' start ((stop - start + step - 1) / step) step

/-- Python `l[i:j]` for `0 ≤ i ≤ j`. -/
def pySlice (l : List α) (i j : Nat) : List α :=
  (l.drop i).take (j - i)

/-- The chunks posted by the loop of `populate_data` (lines 76-84):
`for i in range(0, len(data_list)+1, batch): data_list[i:i+batch]`, with the
literal `100` generalised to `batch`. -/
def submittedBatches (batch : Nat) (data_list : List α) : List (List α) :=
  (pyRange 0 (data_list.length + 1) batch).map (fun i => pySlice data_list i (i + batch))

/-- Lines 70-84 of `app.py`: the sequence of item chunks posted to the
`additems` endpoint, one post per chunk, with the fixed batch size 100. -/
def populate_data (data_list : List Item) : List (List Item) :=
  submittedBatches 100 data_list

/-- The body of the inner loop of `compare_rows` (lines 167-180): update the
`match` flag by comparing one local attribute against one remote attribute.
Value access can raise (`.split` on a non-string, `int(...)` on a
non-numeral), hence the `Except`. -/
def checkAttr (item_attr coll_attr : Attr) (m : Bool) : Except String Bool :=
  if item_attr.Name == coll_attr.Name then
    if item_attr.Type' == coll_attr.Type' then
      if pyStr item_attr.Value == pyStr coll_attr.Value then .ok true
      else if item_attr.Type' == "date" then do
        let a ← pySplitT item_attr.Value
        let b ← pySplitT coll_attr.Value
        if a == b then .ok true else .ok m
      else if containsDotZero (pyStr item_attr.Value) && (item_attr.Type' == "number") then do
        let a ← pyInt item_attr.Value
        let b ← pyInt coll_attr.Value
        if a == b then .ok true else .ok m
      else .ok m
    else .ok m
  else .ok m

/-- The inner loop of `compare_rows`: fold `checkAttr` over all remote
attributes (the Python loop has no break, so every remote attribute is
visited even after a match). -/
def compareAttrLoop (item_attr : Attr) (m : Bool) : List Attr → Except String Bool
  | [] => .ok m
  | coll_attr :: rest => do
    let m' ← checkAttr item_attr coll_attr m
    compareAttrLoop item_attr m' rest

/-- The outer loop of `compare_rows`: every local attribute must find a match
among the remote attributes; the first one that does not makes the row
comparison fail. -/
def compareRowsLoop (collAttrs : List Attr) : List Attr → Except String Bool
  | [] => .ok true
  | item_attr :: rest => do
    let m ← compareAttrLoop item_attr false collAttrs
    if m == false then .ok false else compareRowsLoop collAttrs rest

/-- Lines 158-185 of `app.py`: compare a local row against the remote
`getitem` response. -/
def compare_rows (item_row : Item) (response : GetItemResp) : Except String Bool :=
  if response.ItemFound != true then .ok false
  else compareRowsLoop response.itemAttributes item_row.Attributes

/-- The field loop of `validate_collection_metadata` (lines 107-124): skip the
`index` field, downgrade a `datetime` type in place, and require a remote
field with matching name and type, returning the failure message on the first
field without one. Returns the result together with the updated field list
(the in-place mutations). -/
def vcmLoop (collFields : List CollField) : List Field → Option String × List Field
  | [] => (none, [])
  | f :: rest =>
    if f.name == "index" then
      let r := vcmLoop collFields rest
      (r.1, f :: r.2)
    else
      let f' := if f.type == "datetime" then { f with type := "date" } else f
      if collFields.any (fun c => f'.name == c.Name && f'.type == c.Type') then
        let r := vcmLoop collFields rest
        (r.1, f' :: r.2)
      else
        (some ("Not all Item Fields populated into Collection Fields"), f' :: rest)

/-- Lines 99-126 of `app.py`: check the remote count against the local record
count, then check every non-index field. `none` models the Python return value
`True`; `some msg` models returning the failure message. The returned
`DataItems` carries the in-place mutations done by the field loop. -/
def validate_collection_metadata (details : CollectionDetails) (data_items : DataItems) :
    Option String × DataItems :=
  if details.Count != (data_items.data.length : Int) then
    (some ("Collection Item Count does not match Data Row Count"), data_items)
  else
    let r := vcmLoop details.Fields data_items.fields
    (r.1, { data_items with fields := r.2 })

/-- Python list indexing `l[i]`, including negative indices; `IndexError` when
out of range. -/
def pyIndex (l : List α) (i : Int) : Except String α :=
  let j := if i < 0 then i + l.length else i
  if 0 ≤ j then
    match l.get? j.toNat with
    | some x => .ok x
    | none => .error ("IndexError")
  else .error ("IndexError")

/-- Lines 128-155 of `app.py`: fetch and compare the first and the last row.
`getItem` maps a record key to the remote `getitem` response. `data[0]` and
`data[len(data)-1]` are Python indexing and raise `IndexError` on an empty
record list. `none` models the Python return value `True`. -/
def validate_first_last_rows (data_items : DataItems) (getItem : String → GetItemResp) :
    Except String (Option String) := do
  let first_row ← pyIndex data_items.data 0
  let last_row ← pyIndex data_items.data ((data_items.data.length : Int) - 1)
  let c1 ← compare_rows first_row (getItem first_row.Key)
  if c1 == false then return (some ("First row validation did not pass"))
  let c2 ← compare_rows last_row (getItem last_row.Key)
  if c2 == false then return (some ("Last row validation did not pass"))
  return none

/-- The schema field of the synthetic index added at line 192 of `app.py`:
`to_json(orient=table)` names the integer index `index`, and it is the
primary key of the table. -/
def indexField : Field :=
  { name := "index", type := "integer" }

/-- The JSON row object for the `i`-th source row (1-based): the synthetic
index value followed by the named cells. -/
def dfRow (srcFields : List Field) (i : Nat) (cells : List PyVal) : Row :=
  ("index", PyVal.vInt (i : Int)) :: (srcFields.map Field.name).zip cells

/-- The field loop of `get_data_items` (lines 220-238): route the primary-key
cell into `Key`, downgrade a `datetime` field type in place, and append every
other cell as an attribute. Returns the item together with the updated field
list (the in-place mutations). -/
def processFields (pk : String) (row : Row) : Item → List Field → Item × List Field
  | item, [] => (item, [])
  | item, f :: fs =>
    let cell := rowGet row f.name
    if f.name == pk then
      let r := processFields pk row { item with Key := pyStr cell } fs
      (r.1, f :: r.2)
    else
      let f' := if f.type == "datetime" then { f with type := "date" } else f
      let r := processFields pk row
        { item with Attributes := item.Attributes ++ [{ Name := f'.name, Type' := f'.type, Value := cell }] } fs
      (r.1, f' :: r.2)

/-- The row loop of `get_data_items` (lines 216-240), threading the mutable
field list through the rows. -/
def buildItems (pk : String) : List Field → List Row → List Item × List Field
  | fields, [] => ([], fields)
  | fields, row :: rows =>
    let r := processFields pk row { Key := "", Attributes := [] } fields
    let rest := buildItems pk r.2 rows
    (r.1 :: rest.1, rest.2)

/-- Lines 188-242 of `app.py`: normalization. The input is the typed table
produced by the reader stage (schema fields plus rows of cells, in schema
order); the function adds the synthetic 1-based index as primary key
(line 192 together with the `orient=table` serialisation) and runs the
record-building loop. -/
def get_data_items (srcFields : List Field) (srcRows : List (List PyVal)) : DataItems :=
  let dfFields := indexField :: srcFields
  let dfRows := (List.enumFrom 1 srcRows).map (fun p => dfRow srcFields p.1 p.2)
  let r := buildItems ("index") dfFields dfRows
  { data := r.1, fields := r.2 }

/-- The `datetime` downgrade applied to a declared type. -/
def mutType (t : String) : String :=
  if t == "datetime" then "date" else t

/-- The effect of one pass of the `get_data_items` field loop on a stored
field: non-primary-key fields get the `datetime` downgrade. -/
def updField (pk : String) (f : Field) : Field :=
  if f.name == pk then f else { f with type := mutType f.type }

/-- The attribute built from one non-primary-key field and one row. -/
def attrOfField (row : Row) (f : Field) : Attr :=
  { Name := f.name, Type' := mutType f.type, Value := rowGet row f.name }

/-- Closed form of the item built from one row. -/
def itemOfRow (pk : String) (fs : List Field) (row : Row) : Item :=
  { Key := if fs.any (fun f => f.name == pk) then pyStr (rowGet row pk) else "",
    Attributes := (fs.filter (fun f => !(f.name == pk))).map (attrOfField row) }

/-- The numeric value of a decimal digit character. -/
def digitVal (c : Char) : Nat :=
  c.toNat - 48

/-- Horner evaluation of a most-significant-first decimal digit list, the left
inverse of `Nat.toDigits 10` used to prove keys unique. -/
def digitsVal (l : List Char) : Nat :=
  l.foldl (fun a c => a * 10 + digitVal c) 0

/-- A response sequence that is denied twice and then succeeds. -/
def flakyResp : Nat → RespObj :=
  fun k => if k < 2 then [("Message", "Access Denied")] else [("Status", "OK")]

/-- A response sequence that is always the transient denial. -/
def alwaysDenied : Nat → RespObj :=
  fun _ => [("Message", "Access Denied")]

/-- Concatenating the width-`b` slices starting at `s, s + b, s + 2b, ...`
yields the suffix of `l` from `s`, capped at `k * b` elements. -/
theorem flatten_slices (l : List α) (b : Nat) :
    ∀ (k s : Nat), ((List.range' s k b).map (fun i => (l.drop i).take b)).flatten
      = (l.drop s).take (k * b)
  | 0, s => by simp
  | k + 1, s => by
    rw [List.range'_succ]
    simp only [List.map_cons, List.flatten_cons]
    rw [flatten_slices l b k (s + b), ← List.drop_drop, ← List.take_add]
    congr 1
    ring

/-- Claim C1: for every batch size of at least 1 (the code fixes 100) and
every record list, the upload loop posts contiguous chunks of at most `batch`
records in original order, and concatenating the chunks in order yields
exactly the original record sequence, with no record skipped or duplicated. -/
theorem upload_batches_partition (batch : Nat) (hb : 1 ≤ batch) (l : List α) :
    (submittedBatches batch l).flatten = l
    ∧ (∀ c ∈ submittedBatches batch l, c.length ≤ batch)
    ∧ (∀ data_list : List Item, populate_data data_list = submittedBatches 100 data_list) := by
  refine ⟨?_, ?_, fun _ => rfl⟩
  · unfold submittedBatches pyRange pySlice
    simp only [Nat.add_sub_cancel_left]
    rw [flatten_slices]
    simp only [List.drop_zero]
    apply List.take_of_length_le
    rw [show l.length + 1 - 0 + batch - 1 = l.length + batch from by omega, Nat.mul_comm]
    have h2 := Nat.div_add_mod (l.length + batch) batch
    have h3 : (l.length + batch) % batch < batch := Nat.mod_lt _ (by omega)
    linarith
  · intro c hc
    simp only [submittedBatches, pySlice, List.mem_map] at hc
    obtain ⟨i, _, rfl⟩ := hc
    simp only [List.length_take, List.length_drop]
    omega

/-- Witness for C1 at batch size 100 on a concrete two-record list. -/
theorem upload_batches_partition_witness :
    1 ≤ 100 ∧ (submittedBatches 100 ([{ Key := "1", Attributes := [] },
      { Key := "2", Attributes := [] }] : List Item)).flatten
      = ([{ Key := "1", Attributes := [] }, { Key := "2", Attributes := [] }] : List Item) :=
  ⟨by decide, (upload_batches_partition 100 (by decide)
      ([{ Key := "1", Attributes := [] }, { Key := "2", Attributes := [] }] : List Item)).1⟩

/-- A decimal digit character evaluates back to its digit. -/
theorem digitVal_digitChar (m : Nat) (h : m < 10) : digitVal (Nat.digitChar m) = m := by
  interval_cases m <;> decide

/-- Horner evaluation of a digit-list fold from an arbitrary accumulator. -/
theorem foldl_horner : ∀ (l : List Char) (a : Nat),
    l.foldl (fun x c => x * 10 + digitVal c) a = a * 10 ^ l.length + digitsVal l
  | [], a => by simp [digitsVal]
  | c :: t, a => by
    simp only [List.foldl_cons, List.length_cons, digitsVal]
    rw [foldl_horner t (a * 10 + digitVal c)]
    simp only [Nat.zero_mul, Nat.zero_add]
    rw [foldl_horner t (digitVal c)]
    show _ = a * 10 ^ (t.length + 1) + (digitVal c * 10 ^ t.length + t.foldl _ 0)
    rw [foldl_horner t 0]
    ring

/-- The function digitsVal is a left inverse of the core digit printer, given enough
fuel. -/
theorem digitsVal_toDigitsCore : ∀ (fuel n : Nat) (ds : List Char), n < 10 ^ fuel →
    digitsVal (Nat.toDigitsCore 10 fuel n ds) = n * 10 ^ ds.length + digitsVal ds
  | 0, n, ds, h => by
    simp only [Nat.toDigitsCore]
    have hn : n = 0 := by simpa using h
    subst hn
    simp
  | fuel + 1, n, ds, h => by
    have hcons : ∀ c : Char, digitsVal (c :: ds) = digitVal c * 10 ^ ds.length + digitsVal ds := by
      intro c
      simp only [digitsVal, List.foldl_cons, Nat.zero_mul, Nat.zero_add]
      rw [foldl_horner ds (digitVal c)]
      simp [digitsVal]
    simp only [Nat.toDigitsCore]
    by_cases h10 : n / 10 = 0
    · simp only [h10, if_true, reduceIte]
      rw [hcons, digitVal_digitChar _ (Nat.mod_lt _ (by omega))]
      have hn : n < 10 := by omega
      rw [Nat.mod_eq_of_lt hn]
    · rw [if_neg h10]
      have hdiv : n / 10 < 10 ^ fuel := by
        rw [Nat.div_lt_iff_lt_mul (by omega)]
        calc n < 10 ^ (fuel + 1) := h
          _ = 10 ^ fuel * 10 := by rw [Nat.pow_succ]
      rw [digitsVal_toDigitsCore fuel (n / 10) _ hdiv, hcons,
        digitVal_digitChar _ (Nat.mod_lt _ (by omega))]
      have hdm := Nat.div_add_mod n 10
      simp only [List.length_cons]
      calc n / 10 * 10 ^ (ds.length + 1) + (n % 10 * 10 ^ ds.length + digitsVal ds)
          = (10 * (n / 10) + n % 10) * 10 ^ ds.length + digitsVal ds := by ring
        _ = n * 10 ^ ds.length + digitsVal ds := by rw [hdm]

/-- The function digitsVal inverts `Nat.toDigits 10`. -/
theorem digitsVal_toDigits (n : Nat) : digitsVal (Nat.toDigits 10 n) = n := by
  have h : n < 10 ^ (n + 1) :=
    lt_of_lt_of_le (Nat.lt_pow_self (by norm_num) n)
      (Nat.pow_le_pow_right (by norm_num) (Nat.le_succ n))
  simpa [Nat.toDigits, digitsVal] using digitsVal_toDigitsCore (n + 1) n [] h

/-- The decimal printer of natural numbers is injective: distinct row indices
get distinct string keys. -/
theorem natRepr_inj : Function.Injective Nat.repr := by
  intro m n h
  have hd : Nat.toDigits 10 m = Nat.toDigits 10 n := by
    have hc := congrArg String.data h
    simpa [Nat.repr, List.asString] using hc
  have hm := digitsVal_toDigits m
  rw [hd, digitsVal_toDigits n] at hm
  exact hm.symm

/-- The `datetime` downgrade never produces `datetime`. -/
theorem mutType_ne_datetime (t : String) : mutType t ≠ "datetime" := by
  unfold mutType
  by_cases h : (t == "datetime") = true
  · rw [if_pos h]; decide
  · rw [if_neg h]; simpa using h

/-- The `datetime` downgrade is idempotent. -/
theorem mutType_idem (t : String) : mutType (mutType t) = mutType t := by
  have h : (mutType t == "datetime") = false := by
    simpa using mutType_ne_datetime t
  rw [show mutType (mutType t) = if mutType t == "datetime" then "date" else mutType t from rfl, h]
  simp

/-- One field-loop pass preserves field names. -/
theorem updField_name (pk : String) (f : Field) : (updField pk f).name = f.name := by
  unfold updField
  by_cases h : (f.name == pk) = true <;> simp [h]

/-- One field-loop pass is idempotent on a field. -/
theorem updField_idem (pk : String) (f : Field) : updField pk (updField pk f) = updField pk f := by
  unfold updField
  by_cases h : (f.name == pk) = true
  · simp [h]
  · simp [h, mutType_idem]

/-- The attribute built from a field is unchanged by a previous field-loop
pass over that field. -/
theorem attrOfField_updField (row : Row) (pk : String) (f : Field) :
    attrOfField row (updField pk f) = attrOfField row f := by
  unfold updField attrOfField
  by_cases h : (f.name == pk) = true <;> simp [h, mutType_idem]

/-- A field-loop pass does not change which fields are named `pk`. -/
theorem any_name_map_updField (pk : String) :
    ∀ fs : List Field, (fs.map (updField pk)).any (fun f => f.name == pk)
      = fs.any (fun f => f.name == pk) := by
  intro fs
  induction fs with
  | nil => rfl
  | cons f t ih => simp [List.any_cons, updField_name, ih]

/-- The attributes built from a field list are unchanged by a previous
field-loop pass over it. -/
theorem filter_attr_map_updField (pk : String) (row : Row) :
    ∀ fs : List Field,
    ((fs.map (updField pk)).filter (fun f => !(f.name == pk))).map (attrOfField row)
      = (fs.filter (fun f => !(f.name == pk))).map (attrOfField row) := by
  intro fs
  induction fs with
  | nil => rfl
  | cons f t ih =>
    simp only [List.map_cons, List.filter_cons, updField_name]
    by_cases h : (f.name == pk) = true
    · simp [h, ih]
    · simp [h, ih, attrOfField_updField]

/-- The item built from a row is unchanged by a previous field-loop pass. -/
theorem itemOfRow_map_updField (pk : String) (row : Row) (fs : List Field) :
    itemOfRow pk (fs.map (updField pk)) row = itemOfRow pk fs row := by
  unfold itemOfRow
  rw [any_name_map_updField, filter_attr_map_updField]

/-- A field-loop pass over a field list is idempotent. -/
theorem map_updField_idem (pk : String) (fs : List Field) :
    (fs.map (updField pk)).map (updField pk) = fs.map (updField pk) := by
  rw [List.map_map]
  exact List.map_congr_left (fun f _ => updField_idem pk f)

/-- Closed form of the field loop of `get_data_items`: the key comes from the
`pk` column, the attributes from the remaining columns (with the `datetime`
downgrade), and the stored fields get one downgrade pass. -/
theorem processFields_eq (pk : String) (row : Row) :
    ∀ (fs : List Field) (item : Item),
    processFields pk row item fs =
      ({ Key := if fs.any (fun f => f.name == pk) then pyStr (rowGet row pk) else item.Key,
         Attributes := item.Attributes
           ++ (fs.filter (fun f => !(f.name == pk))).map (attrOfField row) },
       fs.map (updField pk))
  | [], item => by simp [processFields]
  | f :: fs, item => by
    by_cases h : (f.name == pk) = true
    · have hname : f.name = pk := by simpa using h
      simp only [processFields, h, if_true]
      rw [processFields_eq pk row fs]
      simp [List.any_cons, List.filter_cons, h, hname, updField]
    · have h' : (f.name == pk) = false := by simpa using h
      simp only [processFields, h', Bool.false_eq_true, if_false]
      rw [processFields_eq pk row fs]
      simp only [List.any_cons, List.filter_cons, List.map_cons, h', Bool.false_or,
        Bool.not_false, if_true, updField, Bool.false_eq_true, if_false]
      refine Prod.ext ?_ ?_
      · simp only [attrOfField, mutType, List.append_assoc, List.singleton_append]
        by_cases hdt : (f.type == "datetime") = true <;> simp [hdt]
      · simp only [mutType]
        by_cases hdt : (f.type == "datetime") = true <;> simp [hdt]

/-- Closed form of the row loop of `get_data_items`: each row becomes its
item against the original field list (downgrades are idempotent), and the
field list gets one downgrade pass when there is at least one row. -/
theorem buildItems_eq (pk : String) :
    ∀ (rows : List Row) (fs : List Field),
    buildItems pk fs rows =
      (rows.map (itemOfRow pk fs), if rows.isEmpty then fs else fs.map (updField pk))
  | [], fs => by simp [buildItems]
  | row :: rows, fs => by
    simp only [buildItems, processFields_eq, buildItems_eq pk rows (fs.map (updField pk))]
    simp only [List.isEmpty_cons, List.map_cons, Bool.false_eq_true, if_false]
    refine Prod.ext ?_ ?_
    · show _ :: _ = _ :: _
      rw [List.map_congr_left (fun r _ => itemOfRow_map_updField pk r fs)]
      simp [itemOfRow]
    · show (if rows.isEmpty = true then _ else _) = _
      rw [map_updField_idem]
      exact ite_self _

/-- The synthetic index cell is found first in a JSON row. -/
theorem rowGet_dfRow_index (srcFields : List Field) (i : Nat) (cells : List PyVal) :
    rowGet (dfRow srcFields i cells) ("index") = PyVal.vInt (i : Int) := by
  unfold rowGet dfRow
  rw [List.find?_cons_of_pos _ (by rfl)]

/-- Closed form of `get_data_items`. -/
theorem get_data_items_eq (srcFields : List Field) (srcRows : List (List PyVal)) :
    get_data_items srcFields srcRows =
      { data := (List.enumFrom 1 srcRows).map
          (fun p => itemOfRow ("index") (indexField :: srcFields) (dfRow srcFields p.1 p.2)),
        fields := if srcRows.isEmpty then indexField :: srcFields
          else indexField :: srcFields.map (updField ("index")) } := by
  have hie : ((List.enumFrom 1 srcRows).map
      (fun p => dfRow srcFields p.1 p.2)).isEmpty = srcRows.isEmpty := by
    cases srcRows <;> rfl
  simp only [get_data_items]
  rw [buildItems_eq, List.map_map, hie]
  have hupd : (indexField :: srcFields).map (updField ("index"))
      = indexField :: srcFields.map (updField ("index")) := by
    simp [updField, indexField]
  rw [hupd]
  rfl

/-- The key of the item built from the `i`-th JSON row is the printed index. -/
theorem itemOfRow_key (srcFields : List Field) (i : Nat) (cells : List PyVal) :
    (itemOfRow ("index") (indexField :: srcFields) (dfRow srcFields i cells)).Key = Nat.repr i := by
  unfold itemOfRow
  rw [if_pos (by simp [List.any_cons, indexField]), rowGet_dfRow_index]
  rfl

/-- The record keys are exactly the printed indices `1 .. n`. -/
theorem get_data_items_keys (srcFields : List Field) (srcRows : List (List PyVal)) :
    (get_data_items srcFields srcRows).data.map Item.Key
      = (List.range' 1 srcRows.length).map Nat.repr := by
  rw [get_data_items_eq]
  show ((List.enumFrom 1 srcRows).map _).map Item.Key = _
  rw [← List.enumFrom_map_fst 1 srcRows, List.map_map, List.map_map]
  exact List.map_congr_left (fun p _ => itemOfRow_key srcFields p.1 p.2)

/-- Claim C3 (amended): normalization yields one record per source row and
the keys - the synthetic 1-based row indices, stringified - are always
unique; no duplicate detection over source columns takes place. -/
theorem normalization_counts_and_keys (srcFields : List Field) (srcRows : List (List PyVal)) :
    (get_data_items srcFields srcRows).data.length = srcRows.length
    ∧ (get_data_items srcFields srcRows).data.map Item.Key
        = (List.range' 1 srcRows.length).map Nat.repr
    ∧ ((get_data_items srcFields srcRows).data.map Item.Key).Nodup := by
  refine ⟨?_, get_data_items_keys srcFields srcRows, ?_⟩
  · rw [get_data_items_eq]
    simp
  · rw [get_data_items_keys]
    exact List.Nodup.map natRepr_inj (List.nodup_range' 1 srcRows.length)

/-- Counterexample to claim C3 as stated: a source table whose natural key
column `ID` holds the duplicate values 1, 2, 2 normalizes without any error
into three records; the duplicates are neither detected nor deduplicated, and
the record keys are the synthetic row indices, not the `ID` values. -/
theorem duplicate_key_values_no_error :
    (get_data_items [{ name := "ID", type := "integer" }]
        [[PyVal.vInt 1], [PyVal.vInt 2], [PyVal.vInt 2]]).data.map Item.Key = ["1", "2", "3"]
    ∧ (get_data_items [{ name := "ID", type := "integer" }]
        [[PyVal.vInt 1], [PyVal.vInt 2], [PyVal.vInt 2]]).data.length = 3 := by
  decide

/-- Counterexample to claim C8 as stated: the fields of a normalized dataset
do contain a field named like the designated primary-key column, the
synthetic `index`. -/
theorem fields_contain_index_field :
    "index" ∈ ((get_data_items [{ name := "A", type := "string" }]
      [[PyVal.vStr ("x")]]).fields.map Field.name)
    ∧ (get_data_items [{ name := "A", type := "string" }]
      [[PyVal.vStr ("x")]]).fields.map Field.name = ["index", "A"] := by
  decide

/-- Claim C8 (amended): the fields of a normalized dataset are the full
schema field list, with the synthetic primary-key field `index` first; the
metadata validator compensates by skipping any field named `index`. -/
theorem fields_include_primary_key (srcFields : List Field) (srcRows : List (List PyVal)) :
    (get_data_items srcFields srcRows).fields.head? = some indexField
    ∧ (get_data_items srcFields srcRows).fields.map Field.name
        = "index" :: srcFields.map Field.name
    ∧ (∀ (collFields : List CollField) (rest : List Field),
        vcmLoop collFields (indexField :: rest)
          = ((vcmLoop collFields rest).1, indexField :: (vcmLoop collFields rest).2)) := by
  refine ⟨?_, ?_, ?_⟩
  · rw [get_data_items_eq]
    by_cases h : srcRows.isEmpty = true <;> simp [h]
  · rw [get_data_items_eq]
    by_cases h : srcRows.isEmpty = true
    · simp [h, indexField]
    · simp only [h, Bool.false_eq_true, if_false]
      show List.map Field.name (indexField :: _) = _
      simp only [List.map_cons, List.map_map, indexField]
      refine congrArg _ ?_
      exact List.map_congr_left (fun f _ => updField_name ("index") f)
  · intro collFields rest
    simp [vcmLoop, indexField]

/-- For a source table with at least one row, normalization has already
downgraded every `datetime` type among the non-index fields. -/
theorem normalized_fields_no_datetime (srcFields : List Field) (srcRows : List (List PyVal))
    (hne : ¬(srcRows = [])) :
    ∀ f ∈ (get_data_items srcFields srcRows).fields, ¬(f.name = "index") → f.type ≠ "datetime" := by
  intro f hfmem hname
  rw [get_data_items_eq] at hfmem
  have hie : srcRows.isEmpty = false := by
    cases srcRows with
    | nil => exact absurd rfl hne
    | cons a l => rfl
  simp only [hie, Bool.false_eq_true, if_false] at hfmem
  rcases List.mem_cons.mp hfmem with h | h
  · exact absurd (by rw [h]; rfl) hname
  · simp only [List.mem_map] at h
    obtain ⟨g, hg, rfl⟩ := h
    by_cases hgi : (g.name == "index") = true
    · exact absurd (by rw [updField_name]; simpa using hgi) hname
    · have hg' : updField ("index") g = { name := g.name, type := mutType g.type } := by
        unfold updField
        rw [if_neg hgi]
      rw [hg']
      exact mutType_ne_datetime g.type

/-- The attributes of every normalized record come from the non-index source
fields via `attrOfField`. -/
theorem normalized_attrs_shape (srcFields : List Field) (srcRows : List (List PyVal)) :
    ∀ item ∈ (get_data_items srcFields srcRows).data,
      ∃ row, item.Attributes
        = (srcFields.filter (fun f => !(f.name == "index"))).map (attrOfField row) := by
  rw [get_data_items_eq]
  intro item hitem
  simp only [List.mem_map] at hitem
  obtain ⟨p, _, rfl⟩ := hitem
  refine ⟨dfRow srcFields p.1 p.2, ?_⟩
  simp [itemOfRow, indexField, List.filter_cons]

/-- Claim C9: every attribute of a normalized record carries the downgraded
type of its source column - never `datetime` - and a column declared `date`
or `datetime` yields, in every record, an attribute typed `date`; for a
nonempty table the stored fields are downgraded likewise before any
comparison. -/
theorem datetime_downgraded_in_attributes (srcFields : List Field) (srcRows : List (List PyVal)) :
    (∀ item ∈ (get_data_items srcFields srcRows).data,
      ∀ a ∈ item.Attributes, a.Type' ≠ "datetime")
    ∧ (∀ item ∈ (get_data_items srcFields srcRows).data,
      ∀ a ∈ item.Attributes, ∃ f ∈ srcFields, ¬(f.name = "index")
        ∧ a.Name = f.name ∧ a.Type' = mutType f.type)
    ∧ (∀ f ∈ srcFields, ¬(f.name = "index") → (f.type = "date" ∨ f.type = "datetime") →
      ∀ item ∈ (get_data_items srcFields srcRows).data,
        ∃ a ∈ item.Attributes, a.Name = f.name ∧ a.Type' = "date")
    ∧ (¬(srcRows = []) → ∀ f ∈ (get_data_items srcFields srcRows).fields,
      ¬(f.name = "index") → f.type ≠ "datetime") := by
  refine ⟨?_, ?_, ?_, normalized_fields_no_datetime srcFields srcRows⟩
  · intro item hitem a ha
    obtain ⟨row, hrow⟩ := normalized_attrs_shape srcFields srcRows item hitem
    rw [hrow] at ha
    simp only [List.mem_map, List.mem_filter] at ha
    obtain ⟨f, ⟨_, _⟩, rfl⟩ := ha
    exact mutType_ne_datetime f.type
  · intro item hitem a ha
    obtain ⟨row, hrow⟩ := normalized_attrs_shape srcFields srcRows item hitem
    rw [hrow] at ha
    simp only [List.mem_map, List.mem_filter] at ha
    obtain ⟨f, ⟨hf, hname⟩, rfl⟩ := ha
    exact ⟨f, hf, by simpa using hname, rfl, rfl⟩
  · intro f hf hname htype item hitem
    obtain ⟨row, hrow⟩ := normalized_attrs_shape srcFields srcRows item hitem
    rw [hrow]
    refine ⟨attrOfField row f, ?_, rfl, ?_⟩
    · simp only [List.mem_map, List.mem_filter]
      exact ⟨f, ⟨hf, by simpa using hname⟩, rfl⟩
    · rcases htype with h | h <;> simp [attrOfField, mutType, h]

/-- Witness for C9 on a one-row table with a `datetime` column. -/
theorem datetime_downgraded_witness :
    ({ Name := "D", Type' := "date", Value := PyVal.vStr ("2024-01-01") } : Attr).Type' ≠ "datetime"
    ∧ ({ name := "D", type := "date" } : Field).type ≠ "datetime" := by
  constructor
  · exact (datetime_downgraded_in_attributes [{ name := "D", type := "datetime" }]
      [[PyVal.vStr ("2024-01-01")]]).1
      { Key := "1", Attributes := [{ Name := "D", Type' := "date", Value := PyVal.vStr ("2024-01-01") }] }
      (by decide)
      { Name := "D", Type' := "date", Value := PyVal.vStr ("2024-01-01") } (by decide)
  · exact (datetime_downgraded_in_attributes [{ name := "D", type := "datetime" }]
      [[PyVal.vStr ("2024-01-01")]]).2.2.2 (by decide)
      { name := "D", type := "date" } (by decide) (by decide)

/-- The field loop of the metadata check leaves a field list unchanged when
no non-index field is typed `datetime`. -/
theorem vcmLoop_preserves (collFields : List CollField) :
    ∀ fl : List Field, (∀ f ∈ fl, ¬(f.name = "index") → f.type ≠ "datetime") →
      (vcmLoop collFields fl).2 = fl := by
  intro fl
  induction fl with
  | nil => intro _; rfl
  | cons f rest ih =>
    intro h
    have hrest := fun g hg => h g (List.mem_cons_of_mem f hg)
    simp only [vcmLoop]
    by_cases hfi : (f.name == "index") = true
    · rw [if_pos hfi]
      show f :: (vcmLoop collFields rest).2 = f :: rest
      rw [ih hrest]
    · rw [if_neg hfi]
      have hft : f.type ≠ "datetime" := h f (List.mem_cons_self f rest) (by simpa using hfi)
      have hf' : (if f.type == "datetime" then { f with type := "date" } else f) = f := by
        rw [if_neg (by simpa using hft)]
      rw [hf']
      by_cases hany : (collFields.any (fun c => f.name == c.Name && f.type == c.Type')) = true
      · rw [if_pos hany]
        show f :: (vcmLoop collFields rest).2 = f :: rest
        rw [ih hrest]
      · rw [if_neg hany]

/-- Counterexample to claim C6 as stated: on the zero-row dataset of a table
with a `datetime` column, the metadata check passes yet mutates the stored
field type in place, so validation does change the dataset. -/
theorem metadata_check_mutates_zero_row_dataset :
    (validate_collection_metadata { Count := 0, Fields := [{ Name := "D", Type' := "date" }] }
        (get_data_items [{ name := "D", type := "datetime" }] ([] : List (List PyVal)))).2
      ≠ get_data_items [{ name := "D", type := "datetime" }] ([] : List (List PyVal))
    ∧ (validate_collection_metadata { Count := 0, Fields := [{ Name := "D", Type' := "date" }] }
        (get_data_items [{ name := "D", type := "datetime" }] ([] : List (List PyVal)))).1 = none := by
  decide

/-- Claim C6 (amended): the record list is never mutated by the metadata
check, and for every dataset normalized from a table with at least one row
the whole dataset - fields and their declared types included - is returned
unchanged: the in-place `datetime` fix-up in the validator can only fire on a
zero-row dataset. -/
theorem validation_preserves_dataset (srcFields : List Field) (srcRows : List (List PyVal))
    (details : CollectionDetails) (h : ¬(srcRows = [])) :
    (validate_collection_metadata details (get_data_items srcFields srcRows)).2
      = get_data_items srcFields srcRows
    ∧ (∀ di : DataItems, (validate_collection_metadata details di).2.data = di.data) := by
  constructor
  · unfold validate_collection_metadata
    by_cases hc : (details.Count != ((get_data_items srcFields srcRows).data.length : Int)) = true
    · rw [if_pos hc]
    · rw [if_neg hc]
      show ({ get_data_items srcFields srcRows with
        fields := (vcmLoop details.Fields (get_data_items srcFields srcRows).fields).2 } : DataItems)
        = get_data_items srcFields srcRows
      rw [vcmLoop_preserves details.Fields _ (normalized_fields_no_datetime srcFields srcRows h)]
  · intro di
    unfold validate_collection_metadata
    by_cases hc : (details.Count != (di.data.length : Int)) = true <;> simp [hc]

/-- Witness for C6 on a one-row table with a `datetime` column. -/
theorem validation_preserves_dataset_witness :
    (validate_collection_metadata { Count := 1, Fields := [] }
        (get_data_items [{ name := "D", type := "datetime" }] [[PyVal.vStr ("x")]])).2
      = get_data_items [{ name := "D", type := "datetime" }] [[PyVal.vStr ("x")]] :=
  (validation_preserves_dataset [{ name := "D", type := "datetime" }] [[PyVal.vStr ("x")]]
    { Count := 1, Fields := [] } (by decide)).1

/-- Claim C4: on an empty source table the pipeline normalizes to a dataset
with 0 records and the metadata count check passes against a remote count of
0, but - against the claim - the upload loop posts one batch (the empty
chunk from `range(0, 1, 100)`) rather than zero, and the first/last-row check
evaluates `data[0]` and fails with `IndexError` instead of being skipped. -/
theorem empty_table_scenario :
    (get_data_items [{ name := "A", type := "string" }] ([] : List (List PyVal))).data.length = 0
    ∧ populate_data ((get_data_items [{ name := "A", type := "string" }]
        ([] : List (List PyVal))).data) = [[]]
    ∧ (validate_collection_metadata { Count := 0, Fields := [{ Name := "A", Type' := "string" }] }
        (get_data_items [{ name := "A", type := "string" }] ([] : List (List PyVal)))).1 = none
    ∧ validate_first_last_rows
        (get_data_items [{ name := "A", type := "string" }] ([] : List (List PyVal)))
        (fun _ => { ItemFound := true, itemAttributes := [] }) = .error ("IndexError") := by
  refine ⟨by decide, by decide, by decide, by decide⟩

/-- The retry loop returns the first non-denied response, given enough fuel:
starting at attempt `s`, if every response before `N` is a denial and the
`N`-th is not, the loop stops at `N`. -/
theorem attemptRequestAux_success (resp : Nat → RespObj) (N : Nat)
    (hden : ∀ k, k < N → request_denied_check (resp k) = true)
    (hok : request_denied_check (resp N) = false) :
    ∀ (fuel s : Nat), s ≤ N → N < s + fuel → attemptRequestAux resp fuel s = some (resp N)
  | 0, s, hs, hlt => by omega
  | fuel + 1, s, hs, hlt => by
    by_cases hsN : s = N
    · subst hsN
      simp [attemptRequestAux, hok]
    · have hslt : s < N := by omega
      simp only [attemptRequestAux, hden s hslt, if_true]
      exact attemptRequestAux_success resp N hden hok fuel (s + 1) (by omega) (by omega)

/-- If every response is a denial, the loop never produces a value, for any
amount of fuel. -/
theorem attemptRequestAux_alldenied (resp : Nat → RespObj)
    (h : ∀ k, request_denied_check (resp k) = true) :
    ∀ (fuel s : Nat), attemptRequestAux resp fuel s = none
  | 0, _ => rfl
  | fuel + 1, s => by
    simp only [attemptRequestAux, h s, if_true]
    exact attemptRequestAux_alldenied resp h fuel (s + 1)

/-- Claim C5: `attempt_request` returns the first response whose `Message` is
not the transient `Access Denied` denial, retrying while responses are
denials; and since the loop has no attempt bound, a response sequence that is
always a denial makes it run forever (here: exhaust any amount of fuel). -/
theorem attempt_request_retry_behaviour (resp : Nat → RespObj) :
    (∀ N : Nat, (∀ k, k < N → request_denied_check (resp k) = true) →
      request_denied_check (resp N) = false →
      ∀ fuel, N < fuel → attempt_request resp fuel = some (resp N))
    ∧ ((∀ k, request_denied_check (resp k) = true) → ∀ fuel, attempt_request resp fuel = none)
    ∧ (∀ r : RespObj, request_denied_check r = true ↔ r.lookup ("Message") = some ("Access Denied")) := by
  refine ⟨?_, ?_, ?_⟩
  · intro N hden hok fuel hfuel
    exact attemptRequestAux_success resp N hden hok fuel 0 (by omega) (by omega)
  · intro h fuel
    exact attemptRequestAux_alldenied resp h fuel 0
  · intro r
    unfold request_denied_check
    cases hl : r.lookup ("Message") with
    | none => simp
    | some m => simp

/-- Witness for C5: a twice-denied then successful sequence returns the third
response; an always-denied sequence returns nothing for fuel 7. -/
theorem attempt_request_retry_witness :
    attempt_request flakyResp 5 = some ([("Status", "OK")])
    ∧ attempt_request alwaysDenied 7 = none := by
  constructor
  · have h := (attempt_request_retry_behaviour flakyResp).1 2
      (by intro k hk; interval_cases k <;> rfl) (by rfl) 5 (by omega)
    exact h.trans (by rfl)
  · exact (attempt_request_retry_behaviour alwaysDenied).2.1 (fun _ => rfl) 7

/-- Bind on a successful `Except` computation applies the continuation. -/
theorem bind_ok_eq (a : α) (f : α → Except ε β) :
    Bind.bind (Except.ok a) f = f a := rfl

/-- Bind on a failed `Except` computation propagates the error. -/
theorem bind_error_eq (e : ε) (f : α → Except ε β) :
    Bind.bind (Except.error e : Except ε α) f = Except.error e := rfl

/-- The method form of `bind_ok_eq`. -/
theorem except_bind_ok (a : α) (f : α → Except ε β) :
    (Except.ok a : Except ε α).bind f = f a := rfl

/-- The method form of `bind_error_eq`. -/
theorem except_bind_error (e : ε) (f : α → Except ε β) :
    (Except.error e : Except ε α).bind f = Except.error e := rfl

/-- On single-attribute rows, `compare_rows` is exactly one inner-loop
pass. -/
theorem compare_rows_singleton (k : String) (la ra : Attr) :
    compare_rows { Key := k, Attributes := [la] } { ItemFound := true, itemAttributes := [ra] }
      = checkAttr la ra false := by
  unfold compare_rows
  simp only [bne_self_eq_false, Bool.false_eq_true, if_false]
  cases h : checkAttr la ra false with
  | error e =>
    simp only [compareRowsLoop, compareAttrLoop, h]
    rfl
  | ok m =>
    simp only [compareRowsLoop, compareAttrLoop, h]
    cases m <;> rfl

/-- Claim C2 (amended): for a local and a remote attribute agreeing in name
and type, the match verdict is string-form equality, except that for type
`date` the portions before any `T` are compared, and for type `number` with
`".0"` occurring anywhere in the local string form (not only as a trailing
suffix) the `int(...)` values are compared; mismatched types never match. -/
theorem compare_rows_value_rules (k n t t2 : String) (lv rv : PyVal) :
    (pyStr lv = pyStr rv →
      compare_rows { Key := k, Attributes := [{ Name := n, Type' := t, Value := lv }] }
        { ItemFound := true, itemAttributes := [{ Name := n, Type' := t, Value := rv }] }
        = .ok true)
    ∧ (t = "date" → ¬(pyStr lv = pyStr rv) →
      compare_rows { Key := k, Attributes := [{ Name := n, Type' := t, Value := lv }] }
        { ItemFound := true, itemAttributes := [{ Name := n, Type' := t, Value := rv }] }
        = (pySplitT lv).bind (fun a => (pySplitT rv).bind (fun b => .ok (a == b))))
    ∧ (t = "number" → ¬(pyStr lv = pyStr rv) → containsDotZero (pyStr lv) = true →
      compare_rows { Key := k, Attributes := [{ Name := n, Type' := t, Value := lv }] }
        { ItemFound := true, itemAttributes := [{ Name := n, Type' := t, Value := rv }] }
        = (pyInt lv).bind (fun a => (pyInt rv).bind (fun b => .ok (a == b))))
    ∧ (¬(pyStr lv = pyStr rv) → ¬(t = "date") →
      (t = "number" → containsDotZero (pyStr lv) = false) →
      compare_rows { Key := k, Attributes := [{ Name := n, Type' := t, Value := lv }] }
        { ItemFound := true, itemAttributes := [{ Name := n, Type' := t, Value := rv }] }
        = .ok false)
    ∧ (¬(t = t2) →
      compare_rows { Key := k, Attributes := [{ Name := n, Type' := t, Value := lv }] }
        { ItemFound := true, itemAttributes := [{ Name := n, Type' := t2, Value := rv }] }
        = .ok false) := by
  refine ⟨?_, ?_, ?_, ?_, ?_⟩
  · intro hstr
    rw [compare_rows_singleton]
    have hs : (pyStr lv == pyStr rv) = true := by simpa using hstr
    simp [checkAttr, hs]
  · intro ht hstr
    subst ht
    rw [compare_rows_singleton]
    have hs : (pyStr lv == pyStr rv) = false := by simpa using hstr
    cases ha : pySplitT lv with
    | error e => simp [checkAttr, hs, ha, bind_error_eq, except_bind_error]
    | ok a =>
      cases hb : pySplitT rv with
      | error e => simp [checkAttr, hs, ha, hb, bind_ok_eq, bind_error_eq, except_bind_ok, except_bind_error]
      | ok b =>
        by_cases hab : a = b
        · simp [checkAttr, hs, ha, hb, hab, bind_ok_eq, except_bind_ok]
        · simp [checkAttr, hs, ha, hb, hab, bind_ok_eq, except_bind_ok]
  · intro ht hstr hdot
    subst ht
    rw [compare_rows_singleton]
    have hs : (pyStr lv == pyStr rv) = false := by simpa using hstr
    cases ha : pyInt lv with
    | error e => simp [checkAttr, hs, ha, hdot, bind_error_eq, except_bind_error]
    | ok a =>
      cases hb : pyInt rv with
      | error e => simp [checkAttr, hs, ha, hb, hdot, bind_ok_eq, bind_error_eq, except_bind_ok, except_bind_error]
      | ok b =>
        by_cases hab : a = b
        · simp [checkAttr, hs, ha, hb, hdot, hab, bind_ok_eq, except_bind_ok]
        · simp [checkAttr, hs, ha, hb, hdot, hab, bind_ok_eq, except_bind_ok]
  · intro hstr hdate hnum
    rw [compare_rows_singleton]
    have hs : (pyStr lv == pyStr rv) = false := by simpa using hstr
    have hd : (t == "date") = false := by simpa using hdate
    have hn : (containsDotZero (pyStr lv) && (t == "number")) = false := by
      by_cases h : (t == "number") = true
      · have := hnum (by simpa using h)
        simp [this]
      · simp [show (t == "number") = false by simpa using h]
    simp [checkAttr, hs, hd, hn]
  · intro ht
    rw [compare_rows_singleton]
    have h : (t == t2) = false := by simpa using ht
    simp [checkAttr, h]

/-- Witness for C2 on the instances given in the spec: numeric `5.0` vs remote
`"5"` matches, a date with differing time-of-day matches, and a same-name
type mismatch does not match. -/
theorem compare_rows_value_rules_witness :
    compare_rows { Key := "1", Attributes := [{ Name := "S", Type' := "number", Value := PyVal.vFloat false 5 ("0") }] }
      { ItemFound := true, itemAttributes := [{ Name := "S", Type' := "number", Value := PyVal.vStr ("5") }] } = .ok true
    ∧ compare_rows { Key := "1", Attributes := [{ Name := "D", Type' := "date", Value := PyVal.vStr ("2024-01-01T00:00:00") }] }
      { ItemFound := true, itemAttributes := [{ Name := "D", Type' := "date", Value := PyVal.vStr ("2024-01-01T08:00:00") }] } = .ok true
    ∧ compare_rows { Key := "1", Attributes := [{ Name := "A", Type' := "number", Value := PyVal.vStr ("x") }] }
      { ItemFound := true, itemAttributes := [{ Name := "A", Type' := "string", Value := PyVal.vStr ("x") }] } = .ok false := by
  refine ⟨?_, ?_, ?_⟩
  · have h := (compare_rows_value_rules ("1") ("S") ("number") ("number")
      (PyVal.vFloat false 5 ("0")) (PyVal.vStr ("5"))).2.2.1 rfl (by decide) (by decide)
    exact h.trans (by decide)
  · have h := (compare_rows_value_rules ("1") ("D") ("date") ("date")
      (PyVal.vStr ("2024-01-01T00:00:00")) (PyVal.vStr ("2024-01-01T08:00:00"))).2.1 rfl (by decide)
    exact h.trans (by decide)
  · exact (compare_rows_value_rules ("1") ("A") ("number") ("string")
      (PyVal.vStr ("x")) (PyVal.vStr ("x"))).2.2.2.2 (by decide)

/-- Counterexample to claim C2 as stated: the code tests `".0" in str(value)`
(substring), not a trailing `".0"`: a numeric local value `1.05` - whose
string form does not end in `".0"` but contains it - matches the remote
string `"1"` through the `int(...)` comparison, where the rules of the claim say
no match. -/
theorem substring_dot_zero_matches_cex :
    compare_rows { Key := "1", Attributes := [{ Name := "P", Type' := "number", Value := PyVal.vFloat false 1 ("05") }] }
      { ItemFound := true, itemAttributes := [{ Name := "P", Type' := "number", Value := PyVal.vStr ("1") }] } = .ok true
    ∧ pyStr (PyVal.vFloat false 1 ("05")) = "1.05"
    ∧ endsInTrailingDotZero ("1.05") = false
    ∧ containsDotZero ("1.05") = true
    ∧ ¬(pyStr (PyVal.vFloat false 1 ("05")) = pyStr (PyVal.vStr ("1"))) := by
  refine ⟨by decide, by decide, by decide, by decide, by decide⟩

/-- Claim C10: `compare_rows` can raise instead of returning a verdict: a
date-typed local attribute holding a float (no `.split`) raises
`AttributeError`, and a number-typed local value containing `".0"` paired
with the non-integer remote numeral `"5.5"` raises `ValueError` from
`int("5.5")`. -/
theorem compare_rows_partial_cases :
    compare_rows { Key := "1", Attributes := [{ Name := "D", Type' := "date", Value := PyVal.vFloat false 5 ("0") }] }
      { ItemFound := true, itemAttributes := [{ Name := "D", Type' := "date", Value := PyVal.vStr ("2024-01-01") }] } = .error ("AttributeError")
    ∧ compare_rows { Key := "1", Attributes := [{ Name := "P", Type' := "number", Value := PyVal.vFloat false 5 ("0") }] }
      { ItemFound := true, itemAttributes := [{ Name := "P", Type' := "number", Value := PyVal.vStr ("5.5") }] } = .error ("ValueError") := by
  refine ⟨by decide, by decide⟩

/-- A name mismatch leaves the match flag unchanged. -/
theorem checkAttr_name_mismatch (la ra : Attr) (m : Bool) (h : ¬(la.Name = ra.Name)) :
    checkAttr la ra m = .ok m := by
  unfold checkAttr
  rw [if_neg (by simpa using h)]

/-- Remote attributes whose names match no local name leave the inner loop's
flag unchanged. -/
theorem compareAttrLoop_fresh (la : Attr) :
    ∀ (ys : List Attr) (m : Bool), (∀ e ∈ ys, ¬(la.Name = e.Name)) →
      compareAttrLoop la m ys = .ok m
  | [], _, _ => rfl
  | ra :: ys, m, h => by
    show (checkAttr la ra m).bind _ = _
    rw [checkAttr_name_mismatch la ra m (h ra (List.mem_cons_self _ _))]
    exact compareAttrLoop_fresh la ys m (fun e he => h e (List.mem_cons_of_mem _ he))

/-- The inner loop splits over an appended remote attribute list. -/
theorem compareAttrLoop_append (la : Attr) :
    ∀ (xs ys : List Attr) (m : Bool),
      compareAttrLoop la m (xs ++ ys)
        = (compareAttrLoop la m xs).bind (fun mm => compareAttrLoop la mm ys)
  | [], _, _ => rfl
  | ra :: xs, ys, m => by
    show (checkAttr la ra m).bind _ = ((checkAttr la ra m).bind _).bind _
    cases h : checkAttr la ra m with
    | error e => rfl
    | ok mm => exact compareAttrLoop_append la xs ys mm

/-- The outer loop ignores appended remote attributes whose names match no
local attribute. -/
theorem compareRowsLoop_append_fresh (extras : List Attr) :
    ∀ (locals attrs : List Attr),
      (∀ e ∈ extras, ∀ la ∈ locals, ¬(la.Name = e.Name)) →
      compareRowsLoop (attrs ++ extras) locals = compareRowsLoop attrs locals
  | [], _, _ => rfl
  | la :: locals, attrs, h => by
    show (compareAttrLoop la false (attrs ++ extras)).bind _
      = (compareAttrLoop la false attrs).bind _
    rw [compareAttrLoop_append]
    cases hc : compareAttrLoop la false attrs with
    | error e => rfl
    | ok m =>
      rw [except_bind_ok, compareAttrLoop_fresh la extras m
        (fun e he => h e he la (List.mem_cons_self _ _))]
      cases m with
      | false => rfl
      | true =>
        show compareRowsLoop (attrs ++ extras) locals = compareRowsLoop attrs locals
        exact compareRowsLoop_append_fresh extras locals attrs
          (fun e he la' hla' => h e he la' (List.mem_cons_of_mem _ hla'))

/-- A local attribute whose name matches no remote attribute makes the whole
row comparison fail (or an earlier attribute raises): the result is never a
match. -/
theorem compareRowsLoop_unmatched (coll : List Attr) (la : Attr)
    (hla : compareAttrLoop la false coll = .ok false) :
    ∀ locals, la ∈ locals → ¬(compareRowsLoop coll locals = .ok true) := by
  intro locals
  induction locals with
  | nil => intro h; exact absurd h (List.not_mem_nil la)
  | cons a locals ih =>
    intro hmem hcmp
    rcases List.mem_cons.mp hmem with rfl | hmem'
    · rw [show compareRowsLoop coll (la :: locals)
        = (compareAttrLoop la false coll).bind
            (fun m => if m == false then .ok false else compareRowsLoop coll locals) from rfl,
        hla] at hcmp
      exact absurd (show (Except.ok false : Except String Bool) = .ok true from hcmp) (by decide)
    · cases hc : compareAttrLoop a false coll with
      | error e =>
        rw [show compareRowsLoop coll (a :: locals)
          = (compareAttrLoop a false coll).bind
              (fun m => if m == false then .ok false else compareRowsLoop coll locals) from rfl,
          hc] at hcmp
        exact Except.noConfusion
          (show (Except.error e : Except String Bool) = .ok true from hcmp)
      | ok m =>
        rw [show compareRowsLoop coll (a :: locals)
          = (compareAttrLoop a false coll).bind
              (fun m => if m == false then .ok false else compareRowsLoop coll locals) from rfl,
          hc] at hcmp
        cases m with
        | false =>
          exact absurd (show (Except.ok false : Except String Bool) = .ok true from hcmp)
            (by decide)
        | true =>
          exact ih hmem' (show compareRowsLoop coll locals = .ok true from hcmp)

/-- Python `l[0]` on a nonempty list. -/
theorem pyIndex_zero (d : α) (ds : List α) : pyIndex (d :: ds) 0 = .ok d := rfl

/-- Python `l[i]` for a nonnegative index is a plain list lookup. -/
theorem pyIndex_nonneg (l : List α) (i : Int) (h0 : ¬(i < 0)) :
    pyIndex l i = (match l.get? i.toNat with
      | some x => .ok x
      | none => .error ("IndexError")) := by
  have hdef : pyIndex l i
      = if 0 ≤ (if i < 0 then i + l.length else i) then
          (match l.get? (if i < 0 then i + l.length else i).toNat with
            | some x => .ok x
            | none => .error ("IndexError"))
        else .error ("IndexError") := rfl
  rw [hdef, if_neg h0, if_pos (by omega : (0 : Int) ≤ i)]

/-- Python `l[len(l)-1]` on a nonempty list succeeds. -/
theorem pyIndex_last (d : α) (ds : List α) :
    ∃ x, pyIndex (d :: ds) (((d :: ds).length : Int) - 1) = .ok x := by
  have hni : ¬((((d :: ds).length : Int) - 1) < 0) := by
    simp only [List.length_cons]
    omega
  rw [pyIndex_nonneg _ _ hni]
  have hj : ((((d :: ds).length : Int) - 1)).toNat = ds.length := by
    simp only [List.length_cons]
    omega
  rw [hj]
  have hget : (d :: ds).get? ds.length
      = some ((d :: ds).get ⟨ds.length, Nat.lt_succ_self ds.length⟩) :=
    @List.get?_eq_get _ (d :: ds) ds.length (Nat.lt_succ_self ds.length)
  rw [hget]
  exact ⟨_, rfl⟩

/-- Claim C7 (amended): `compare_rows` checks only local attributes against
the remote ones - remote attributes matching no local name are ignored and
never cause a mismatch - while a local attribute matching no remote name
means the result is never a match; and a failing first-row comparison makes
`validate_first_last_rows` report the fixed message `"First row validation
did not pass"`, which names neither the record key nor the attribute. -/
theorem compare_rows_local_only :
    (∀ (row : Item) (found : Bool) (attrs extras : List Attr),
      (∀ e ∈ extras, ∀ la ∈ row.Attributes, ¬(la.Name = e.Name)) →
      compare_rows row { ItemFound := found, itemAttributes := attrs ++ extras }
        = compare_rows row { ItemFound := found, itemAttributes := attrs })
    ∧ (∀ (row : Item) (resp : GetItemResp) (la : Attr), la ∈ row.Attributes →
      (∀ ra ∈ resp.itemAttributes, ¬(la.Name = ra.Name)) →
      ¬(compare_rows row resp = .ok true))
    ∧ (∀ (di : DataItems) (getItem : String → GetItemResp) (d : Item) (ds : List Item),
      di.data = d :: ds → compare_rows d (getItem d.Key) = .ok false →
      validate_first_last_rows di getItem
        = .ok (some ("First row validation did not pass"))) := by
  refine ⟨?_, ?_, ?_⟩
  · intro row found attrs extras h
    cases found with
    | false => rfl
    | true =>
      show compareRowsLoop (attrs ++ extras) row.Attributes
        = compareRowsLoop attrs row.Attributes
      exact compareRowsLoop_append_fresh extras row.Attributes attrs h
  · intro row resp la hmem hfresh hcmp
    cases hfound : resp.ItemFound with
    | false =>
      unfold compare_rows at hcmp
      rw [hfound] at hcmp
      exact absurd (show (Except.ok false : Except String Bool) = .ok true from hcmp) (by decide)
    | true =>
      unfold compare_rows at hcmp
      rw [hfound] at hcmp
      have hla : compareAttrLoop la false resp.itemAttributes = .ok false :=
        compareAttrLoop_fresh la resp.itemAttributes false hfresh
      exact compareRowsLoop_unmatched resp.itemAttributes la hla row.Attributes hmem
        (show compareRowsLoop resp.itemAttributes row.Attributes = .ok true from hcmp)
  · intro di getItem d ds hdata hcmp
    unfold validate_first_last_rows
    rw [hdata, pyIndex_zero, bind_ok_eq]
    obtain ⟨x, hx⟩ := pyIndex_last d ds
    rw [hx, bind_ok_eq, hcmp, bind_ok_eq]
    rfl

/-- Counterexample to claim C7 as stated: a remote attribute `B` matching no
local attribute does not cause a mismatch - the row comparison still
returns a match. -/
theorem extra_remote_attr_no_mismatch_cex :
    compare_rows { Key := "1", Attributes := [{ Name := "A", Type' := "string", Value := PyVal.vStr ("x") }] }
      { ItemFound := true, itemAttributes := [{ Name := "A", Type' := "string", Value := PyVal.vStr ("x") }, { Name := "B", Type' := "string", Value := PyVal.vStr ("y") }] } = .ok true := by
  decide

/-- Witness for C7: appending the fresh remote attribute `B` leaves the
comparison result unchanged. -/
theorem compare_rows_local_only_witness :
    compare_rows { Key := "1", Attributes := [{ Name := "A", Type' := "string", Value := PyVal.vStr ("x") }] }
      { ItemFound := true, itemAttributes := [{ Name := "A", Type' := "string", Value := PyVal.vStr ("x") }] ++ [{ Name := "B", Type' := "string", Value := PyVal.vStr ("y") }] }
      = compare_rows { Key := "1", Attributes := [{ Name := "A", Type' := "string", Value := PyVal.vStr ("x") }] }
        { ItemFound := true, itemAttributes := [{ Name := "A", Type' := "string", Value := PyVal.vStr ("x") }] } :=
  compare_rows_local_only.1
    { Key := "1", Attributes := [{ Name := "A", Type' := "string", Value := PyVal.vStr ("x") }] }
    true
    [{ Name := "A", Type' := "string", Value := PyVal.vStr ("x") }]
    [{ Name := "B", Type' := "string", Value := PyVal.vStr ("y") }]
    (by decide)

end Pipeline
